import Mathlib

/-!
Verification of the instrumental-variable estimation module `panel/iv/iv.py`
(IV2SLS, IVLIML, IVGMM estimators, GMM weight matrices, results containers).

The Python module is embedded shallowly over exact rational arithmetic:
numpy arrays become `Matrix (Fin n) (Fin k) ℚ`, `@` becomes matrix
multiplication, `.T` becomes transpose, and the fallible paths of the code
(KeyError from registry lookups, ValueError from rank validation, NameError
from locals that are only bound inside a loop body) become `Except PyError`.
1-by-1 numpy arrays (such as `eps.T @ eps`) are identified with their single
scalar entry where the code uses them as scalars.
-/

open Matrix

/-- The three kinds of exception the embedded code can raise: `ValueError`
from input validation, `KeyError` from a failed registry lookup, and
`NameError` from reading a local variable that was never bound (which is what
CPython raises, as an `UnboundLocalError`, when `IVGMM.fit`'s loop body never
runs and line 454 reads `w`). -/
inductive PyError where
  | valueError : PyError
  | keyError : PyError
  | nameError : PyError
deriving DecidableEq

/-- Embedding of `numpy.linalg.inv`, in executable form: `det⁻¹ • adjugate`.
For a nonsingular matrix this is the inverse; on a singular matrix numpy
raises `LinAlgError` while this returns the zero matrix (the convention of
Mathlib's noncomputable `Matrix.inv`, with which it agrees definitionally,
see `inv_eq_matrix_inv`) — every claim involving an inverse carries the
well-conditionedness hypothesis under which the two semantics coincide. -/
def inv {m : ℕ} (a : Matrix (Fin m) (Fin m) ℚ) : Matrix (Fin m) (Fin m) ℚ :=
  a.det⁻¹ • a.adjugate

/-- Embedding of `numpy.linalg.pinv`. The code only applies `pinv` to the
instrument matrix `z` (and, for the OLS comparison, to full-rank regressor
matrices); `_validate_inputs` rejects instrument matrices without full column
rank before any estimation runs, and on a full-column-rank matrix the
Moore-Penrose pseudoinverse is exactly `(aᵀa)⁻¹aᵀ`, which is the formula used
here. -/
def pinv {n m : ℕ} (a : Matrix (Fin n) (Fin m) ℚ) : Matrix (Fin m) (Fin n) ℚ :=
  inv (aᵀ * a) * aᵀ

/-- Exact-arithmetic reading of the code's rank condition
`matrix_rank(a) == a.shape[1]` (full column rank): over ℚ the columns of `a`
are linearly independent iff the Gram matrix `aᵀa` is nonsingular. -/
def fullColumnRank {n m : ℕ} (a : Matrix (Fin n) (Fin m) ℚ) : Prop :=
  (aᵀ * a).det ≠ 0

/-- Modelled from the spec: the external `panel.utility.has_constant` helper
(the spec lists it as an out-of-scope collaborator: "a generic 'has a constant
column' utility").  The source of the utility is not part of this repository
snapshot, so it is modelled directly from those words: it reports whether some
column of `x` is constant (all entries equal). -/
def has_constant {n k : ℕ} (x : Matrix (Fin n) (Fin k) ℚ) : Bool :=
  decide (∃ j : Fin k, ∀ i i' : Fin n, x i j = x i' j)

/-- The registry `COVARIANCE_ESTIMATORS` (module level, lines 13-21).  The
concrete covariance classes live in the external `panel.iv.covariance`
module; only the set of registered names matters to the estimators' control
flow, so the registry is embedded as its key set. -/
def COVARIANCE_ESTIMATORS : List String :=
  ["homoskedastic", "unadjusted", "homo", "robust", "heteroskedastic", "hccm",
   "newey-west", "bartlett", "one-way"]

/-- `IV2SLS.estimate_parameters` (static method, lines 78-101):
`inv((x.T @ z) @ (pinvz @ x)) @ ((x.T @ z) @ (pinvz @ y))`. -/
def IV2SLS.estimate_parameters {n k m : ℕ} (x : Matrix (Fin n) (Fin k) ℚ)
    (y : Matrix (Fin n) (Fin 1) ℚ) (z : Matrix (Fin n) (Fin m) ℚ) :
    Matrix (Fin k) (Fin 1) ℚ :=
  inv ((xᵀ * z) * (pinv z * x)) * ((xᵀ * z) * (pinv z * y))

/-- The error-raising part of `IV2SLS._validate_inputs` (lines 53-60): the
regressor matrix and then the instrument matrix are checked for full column
rank, each failure raising a `ValueError`.  The method afterwards computes
the per-column exogeneity flags (`IV2SLS.regressor_is_exog` below), which
cannot raise. -/
def IV2SLS.validate_inputs {n k m : ℕ} (exog : Matrix (Fin n) (Fin k) ℚ)
    (instruments : Matrix (Fin n) (Fin m) ℚ) : Except PyError Unit :=
  if (exogᵀ * exog).det = 0 then .error .valueError
  else if (instrumentsᵀ * instruments).det = 0 then .error .valueError
  else .ok ()

/-- The classification loop of `IV2SLS._validate_inputs` (lines 62-76), for
one regressor column `j`.  Branch 1: `all(xc == 1) or (xc.ptp(axis=0) == 0
and xc[0] != 0)` — a literal ones column, or a constant nonzero column (the
`xc[0]` access is guarded: Python's `or` short-circuits, and for `n = 0`
numpy's `all` on an empty array is `True`, so the second disjunct is written
with the explicit bound `0 < n` it implicitly carries).  Branch 2:
`any(all(xc[:, None] == z, axis=0))` — the column coincides element-wise with
some instrument column.  Branch 3: the projection-residual ratio test
`((e.T @ e) / (xc.T @ xc)) < 1e-8` with `e = xc - z @ (pinvz @ xc)`. -/
def IV2SLS.regressor_is_exog {n k m : ℕ} (x : Matrix (Fin n) (Fin k) ℚ)
    (z : Matrix (Fin n) (Fin m) ℚ) (j : Fin k) : Bool :=
  let xc : Matrix (Fin n) (Fin 1) ℚ := Matrix.of fun i _ => x i j
  if (∀ i, x i j = 1) ∨
      ((∀ i i' : Fin n, x i j = x i' j) ∧ ∀ h : 0 < n, x ⟨0, h⟩ j ≠ 0) then
    true
  else if ∃ jz : Fin m, ∀ i, x i j = z i jz then
    true
  else
    let params := pinv z * xc
    let e := xc - z * params
    decide ((eᵀ * e) 0 0 / (xcᵀ * xc) 0 0 < 1 / 100000000)

/-- Results container `IVResults` (lines 465-566), restricted to the fields
the estimators fill in from their own computation.  The covariance matrix is
produced by the external covariance estimator named by `cov_type` and is not
modelled; `r2`, `resid_ss` and `model_ss` are the 1-by-1 arrays of the code
read as scalars. -/
structure IVResults (k : ℕ) where
  params : Matrix (Fin k) (Fin 1) ℚ
  r2 : ℚ
  cov_type : String
  resid_ss : ℚ
  model_ss : ℚ
deriving DecidableEq

/-- Read access `IVResults.rsquared` (property, lines 523-526). -/
def IVResults.rsquared {k : ℕ} (r : IVResults k) : ℚ := r.r2

/-- `IV2SLS.fit` (lines 103-138).  The parameter estimate is computed first;
the lookup `COVARIANCE_ESTIMATORS[cov_type]` raises a `KeyError` for an
unregistered name; otherwise residuals, the two sums of squares and
`r2 = 1 - residual_ss / model_ss` are computed, with `mu` the outcome mean
when the model has a constant and `0` otherwise.  The external covariance
object is constructed but its value is not part of the model. -/
def IV2SLS.fit {n k m : ℕ} (endog : Matrix (Fin n) (Fin 1) ℚ)
    (exog : Matrix (Fin n) (Fin k) ℚ) (instruments : Matrix (Fin n) (Fin m) ℚ)
    (cov_type : String) : Except PyError (IVResults k) :=
  let params := IV2SLS.estimate_parameters exog endog instruments
  if cov_type ∈ COVARIANCE_ESTIMATORS then
    let eps := endog - exog * params
    let mu : ℚ := if has_constant exog then (∑ i, endog i 0) / (n : ℚ) else 0
    let ymu : Matrix (Fin n) (Fin 1) ℚ := Matrix.of fun i _ => endog i 0 - mu
    let residual_ss : ℚ := (epsᵀ * eps) 0 0
    let model_ss : ℚ := (ymuᵀ * ymu) 0 0
    .ok ⟨params, 1 - residual_ss / model_ss, cov_type, residual_ss, model_ss⟩
  else .error .keyError

/-- `IVLIML.estimate_parameters` (static method, lines 288-315), the κ-class
estimator: `p1 = (x.T @ x) * (1 - kappa) + kappa * ((x.T @ z) @ (pinvz @ x))`,
`p2 = (x.T @ y) * (1 - kappa) + kappa * ((x.T @ z) @ (pinvz @ y))`, returning
`inv(p1) @ p2` (scalar-times-array is scalar multiplication). -/
def IVLIML.estimate_parameters {n k m : ℕ} (x : Matrix (Fin n) (Fin k) ℚ)
    (y : Matrix (Fin n) (Fin 1) ℚ) (z : Matrix (Fin n) (Fin m) ℚ) (kappa : ℚ) :
    Matrix (Fin k) (Fin 1) ℚ :=
  inv ((1 - kappa) • (xᵀ * x) + kappa • ((xᵀ * z) * (pinv z * x))) *
    ((1 - kappa) • (xᵀ * y) + kappa • ((xᵀ * z) * (pinv z * y)))

/-- `IVLIML.fit` (lines 317-367) on the user-supplied-κ path (`self._kappa`
not `None`; when it is `None` the code derives κ from a generalized
eigenvalue problem through the external `inv_sqrth` and `numpy.eigvalsh`
collaborators, a computation that leaves ℚ and is outside this model).  As in
`IV2SLS.fit`, the `COVARIANCE_ESTIMATORS[cov_type]` lookup raises `KeyError`
on an unregistered name after the parameters are computed. -/
def IVLIML.fit {n k m : ℕ} (endog : Matrix (Fin n) (Fin 1) ℚ)
    (exog : Matrix (Fin n) (Fin k) ℚ) (instruments : Matrix (Fin n) (Fin m) ℚ)
    (kappa : ℚ) (cov_type : String) : Except PyError (IVResults k) :=
  let params := IVLIML.estimate_parameters exog endog instruments kappa
  if cov_type ∈ COVARIANCE_ESTIMATORS then
    let eps := endog - exog * params
    let mu : ℚ := if has_constant exog then (∑ i, endog i 0) / (n : ℚ) else 0
    let ymu : Matrix (Fin n) (Fin 1) ℚ := Matrix.of fun i _ => endog i 0 - mu
    let residual_ss : ℚ := (epsᵀ * eps) 0 0
    let model_ss : ℚ := (ymuᵀ * ymu) 0 0
    .ok ⟨params, 1 - residual_ss / model_ss, cov_type, residual_ss, model_ss⟩
  else .error .keyError

/-- The broadcast product `ze = z * eps` (numpy elementwise multiplication of
an n-by-m array with an n-by-1 column): `ze[i, j] = z[i, j] * eps[i, 0]`. -/
def broadcastMulCol {n m : ℕ} (z : Matrix (Fin n) (Fin m) ℚ)
    (eps : Matrix (Fin n) (Fin 1) ℚ) : Matrix (Fin n) (Fin m) ℚ :=
  Matrix.of fun i j => z i j * eps i 0

/-- Instance state of `HomoskedasticWeightMatrix` (lines 148-181): the merged
configuration, whose only recognized key is `center` (default `False`). -/
structure HomoskedasticWeightMatrix where
  center : Bool
deriving DecidableEq

/-- `HomoskedasticWeightMatrix.__init__` (lines 156-164): every key of
`weight_config` must belong to the `defaults` dict `{'center': False}`, else
a `ValueError` is raised; the recognized keys then override the defaults.
Keyword arguments are modelled as an association list (Python guarantees the
keys are distinct; `find?` on the reversed list returns the binding that
`dict.update` would keep). -/
def HomoskedasticWeightMatrix.init (weight_config : List (String × Bool)) :
    Except PyError HomoskedasticWeightMatrix :=
  if weight_config.all fun kv => kv.1 = "center" then
    .ok ⟨(((weight_config.reverse.find? fun kv => kv.1 = "center").map
      Prod.snd).getD false)⟩
  else .error .valueError

/-- `HomoskedasticWeightMatrix.weight_matrix` (lines 166-169):
`s2 = eps.T @ eps / nobs` (a 1-by-1 array used as a scalar), then
`s2 * z.T @ z / nobs`, which by Python precedence is `((s2 * z.T) @ z) / nobs`
with the 1-by-1 `s2` broadcasting as a scalar factor.  The method reads
neither `x` (beyond `nobs = x.shape[0]`, which equals `n`) nor the instance
configuration `self`. -/
def HomoskedasticWeightMatrix.weight_matrix {n k m : ℕ}
    (self : HomoskedasticWeightMatrix) (x : Matrix (Fin n) (Fin k) ℚ)
    (z : Matrix (Fin n) (Fin m) ℚ) (eps : Matrix (Fin n) (Fin 1) ℚ) :
    Matrix (Fin m) (Fin m) ℚ :=
  let nobs : ℚ := (n : ℚ)
  let s2 : ℚ := (epsᵀ * eps) 0 0 / nobs
  nobs⁻¹ • ((s2 • zᵀ) * z)

/-- Instance state of `HeteroskedasticWeightMatrix` (lines 184-195); same
recognized configuration as the homoskedastic strategy. -/
structure HeteroskedasticWeightMatrix where
  center : Bool
deriving DecidableEq

/-- `HeteroskedasticWeightMatrix.weight_matrix` (lines 188-195):
`ze = z * eps`, demeaned column-wise when `center` is set
(`mu = ze.mean(axis=0) if wc['center'] else 0; ze -= mu`), returning
`ze.T @ ze / nobs`. -/
def HeteroskedasticWeightMatrix.weight_matrix {n k m : ℕ}
    (self : HeteroskedasticWeightMatrix) (x : Matrix (Fin n) (Fin k) ℚ)
    (z : Matrix (Fin n) (Fin m) ℚ) (eps : Matrix (Fin n) (Fin 1) ℚ) :
    Matrix (Fin m) (Fin m) ℚ :=
  let ze := broadcastMulCol z eps
  let mu : Fin m → ℚ := fun j => if self.center then (∑ i, ze i j) / (n : ℚ) else 0
  let zec : Matrix (Fin n) (Fin m) ℚ := Matrix.of fun i j => ze i j - mu j
  (n : ℚ)⁻¹ • (zecᵀ * zec)

/-- Instance state of `OneWayClusteredWeightMatrix` (lines 239-270):
recognized configuration `{'clusters': None, 'center': False}`. -/
structure OneWayClusteredWeightMatrix (n : ℕ) where
  center : Bool
  clusters : Option (Fin n → ℤ)

/-- `OneWayClusteredWeightMatrix.weight_matrix` (lines 243-265).  After the
optional demeaning, the code substitutes `arange(nobs)` for a missing
`clusters` array, sorts the rows of `ze` by cluster label
(`ind = argsort(clusters); ze = ze[ind]`), cuts the sorted label vector at
every position where adjacent labels differ (`locs`), and accumulates
`zec.T @ zec` over the resulting contiguous blocks.  Row-sorting is
`Tuple.sort` (any sorting permutation yields the same sum, because the blocks
of a sorted vector are exactly its equal-label classes); a pair `(i, j)` of
sorted positions lies in one contiguous block iff every position between them
carries the same label, which is the guard of the double sum: the block
decomposition of `s = Σ_blocks zec_blockᵀ zec_block` has entry
`(a, b) = Σ over within-block pairs (i, j) of zs[i, a] * zs[j, b]`. -/
def OneWayClusteredWeightMatrix.weight_matrix {n k m : ℕ}
    (self : OneWayClusteredWeightMatrix n) (x : Matrix (Fin n) (Fin k) ℚ)
    (z : Matrix (Fin n) (Fin m) ℚ) (eps : Matrix (Fin n) (Fin 1) ℚ) :
    Matrix (Fin m) (Fin m) ℚ :=
  let ze := broadcastMulCol z eps
  let mu : Fin m → ℚ := fun j => if self.center then (∑ i, ze i j) / (n : ℚ) else 0
  let zec : Matrix (Fin n) (Fin m) ℚ := Matrix.of fun i j => ze i j - mu j
  let c : Fin n → ℤ := self.clusters.getD fun i => (i : ℤ)
  let σ : Equiv.Perm (Fin n) := Tuple.sort c
  let zs : Matrix (Fin n) (Fin m) ℚ := Matrix.of fun i j => zec (σ i) j
  let cs : Fin n → ℤ := fun i => c (σ i)
  let s : Matrix (Fin m) (Fin m) ℚ := Matrix.of fun a b =>
    ∑ i, ∑ j, if ∀ l, min i j ≤ l → l ≤ max i j → cs l = cs i then
      zs i a * zs j b else 0
  (n : ℚ)⁻¹ • s

/-- Tags for the strategies registered in `WEIGHT_MATRICES` (lines 273-278). -/
inductive WeightKind where
  | homoskedastic : WeightKind
  | heteroskedastic : WeightKind
  | kernelHAC : WeightKind
  | clustered : WeightKind
deriving DecidableEq

/-- The registry `WEIGHT_MATRICES` (lines 273-278) as its name-to-strategy
lookup; an unregistered name yields `none` (a Python `KeyError` at the
subscript).  The kernel HAC strategy participates through its tag only — its
weight computation (lines 198-236) is not needed by the theorems below. -/
def WEIGHT_MATRICES (name : String) : Option WeightKind :=
  if name = "unadjusted" ∨ name = "homoskedastic" then some .homoskedastic
  else if name = "robust" ∨ name = "heteroskedastic" then some .heteroskedastic
  else if name = "kernel" then some .kernelHAC
  else if name = "clustered" then some .clustered
  else none

/-- `IVGMM.__init__` (lines 399-404): `super().__init__` runs
`IV2SLS._validate_inputs` (the rank checks) first; only afterwards is
`WEIGHT_MATRICES[weight_type]` subscripted, raising `KeyError` for an
unrecognized `weight_type`. -/
def IVGMM.create {n k m : ℕ} (endog : Matrix (Fin n) (Fin 1) ℚ)
    (exog : Matrix (Fin n) (Fin k) ℚ) (instruments : Matrix (Fin n) (Fin m) ℚ)
    (weight_type : String) : Except PyError WeightKind :=
  match IV2SLS.validate_inputs exog instruments with
  | .error e => .error e
  | .ok _ =>
    match WEIGHT_MATRICES weight_type with
    | none => .error .keyError
    | some wk => .ok wk

/-- `IVGMM.estimate_parameters` (static method, lines 406-432):
`xpz = x.T @ z; zpy = z.T @ y; inv(xpz @ w @ xpz.T) @ (xpz @ w @ zpy)`. -/
def IVGMM.estimate_parameters {n k m : ℕ} (x : Matrix (Fin n) (Fin k) ℚ)
    (y : Matrix (Fin n) (Fin 1) ℚ) (z : Matrix (Fin n) (Fin m) ℚ)
    (w : Matrix (Fin m) (Fin m) ℚ) : Matrix (Fin k) (Fin 1) ℚ :=
  let xpz := xᵀ * z
  let zpy := zᵀ * y
  inv (xpz * w * xpzᵀ) * (xpz * w * zpy)

/-- The type of a bound `weight_matrix` method, as `IVGMM.fit` receives it at
line 437 (`weight_matrix = self._weight.weight_matrix`). -/
def WeightMatrixFn (n k m : ℕ) :=
  Matrix (Fin n) (Fin k) ℚ → Matrix (Fin n) (Fin m) ℚ →
    Matrix (Fin n) (Fin 1) ℚ → Matrix (Fin m) (Fin m) ℚ

/-- The Python local variables live across iterations of `IVGMM.fit`'s
re-weighting loop (lines 439-452): `params` and `_params` (the previous
estimate), the counter `i`, the convergence `norm`, and the locals `eps`,
`w`, `vinv` that are only assigned inside the loop body and are therefore
unbound (`none`) until the body has run at least once. -/
structure GMMState (n k m : ℕ) where
  params : Matrix (Fin k) (Fin 1) ℚ
  prev_params : Matrix (Fin k) (Fin 1) ℚ
  i : ℕ
  norm : ℚ
  eps : Option (Matrix (Fin n) (Fin 1) ℚ)
  w : Option (Matrix (Fin m) (Fin m) ℚ)
  vinv : Option (Matrix (Fin k) (Fin k) ℚ)

/-- One pass of the body of `IVGMM.fit`'s loop (lines 441-452):
residuals from the current estimate, `w = inv(weight_matrix(x, z, eps))`,
re-estimation, `delta = params - _params`, the rescaled `xpz = x.T @ z / nobs`,
`v = (xpz @ w @ xpz.T) / nobs` computed (and `vinv = inv(v)` bound) only when
`i == 1` — on later passes the previously bound `vinv` is reused, and reading
it unbound would be a `NameError` — then `norm = delta.T @ vinv @ delta` and
`i += 1`.  (The body also forms `ze = z * eps`, which it never uses.) -/
def IVGMM.step {n k m : ℕ} (x : Matrix (Fin n) (Fin k) ℚ)
    (y : Matrix (Fin n) (Fin 1) ℚ) (z : Matrix (Fin n) (Fin m) ℚ)
    (wm : WeightMatrixFn n k m) (s : GMMState n k m) :
    Except PyError (GMMState n k m) :=
  let eps := y - x * s.params
  let w := inv (wm x z eps)
  let params := IVGMM.estimate_parameters x y z w
  let delta := params - s.prev_params
  let xpz := (n : ℚ)⁻¹ • (xᵀ * z)
  match (if s.i = 1 then some (inv ((n : ℚ)⁻¹ • (xpz * w * xpzᵀ))) else s.vinv) with
  | none => .error .nameError
  | some vinv =>
      .ok ⟨params, params, s.i + 1, (deltaᵀ * vinv * delta) 0 0,
        some eps, some w, some vinv⟩

/-- The loop `while i < iter_limit and norm > tol` of `IVGMM.fit` (line 440),
written with a fuel argument for structural recursion.  `fit` invokes it with
`fuel = iter_limit`; since `i` starts at 1 and increases by 1 per pass, the
guard `i < iter_limit` fails before the fuel can run out, so the fuel clause
never alters the semantics (the loop-bound theorems below make this exact). -/
def IVGMM.loop {n k m : ℕ} (x : Matrix (Fin n) (Fin k) ℚ)
    (y : Matrix (Fin n) (Fin 1) ℚ) (z : Matrix (Fin n) (Fin m) ℚ)
    (wm : WeightMatrixFn n k m) (iter_limit : ℕ) (tol : ℚ) :
    ℕ → GMMState n k m → Except PyError (GMMState n k m)
  | 0, s => .ok s
  | fuel + 1, s =>
    if s.i < iter_limit ∧ tol < s.norm then
      match IVGMM.step x y z wm s with
      | .error e => .error e
      | .ok s' => IVGMM.loop x y z wm iter_limit tol fuel s'
    else .ok s

/-- The state of the loop locals on entry (lines 438-439): the one-step
estimate with the identity weight `eye(ninstr)`, `i = 1`,
`norm = 10 * tol`, and `eps`, `w`, `vinv` not yet bound. -/
def IVGMM.initState {n k m : ℕ} (x : Matrix (Fin n) (Fin k) ℚ)
    (y : Matrix (Fin n) (Fin 1) ℚ) (z : Matrix (Fin n) (Fin m) ℚ) (tol : ℚ) :
    GMMState n k m :=
  let params := IVGMM.estimate_parameters x y z 1
  ⟨params, params, 1, 10 * tol, none, none, none⟩

/-- Results container `IVGMMResults` (lines 569-596), restricted as
`IVResults` is; it additionally carries the final weight matrix and the
iteration counter `i` that `fit` reports. -/
structure IVGMMResults (k m : ℕ) where
  params : Matrix (Fin k) (Fin 1) ℚ
  r2 : ℚ
  cov_type : String
  resid_ss : ℚ
  model_ss : ℚ
  weight_mat : Matrix (Fin m) (Fin m) ℚ
  iterations : ℕ

/-- `IVGMM.fit` (lines 434-462).  After the loop, line 454 reads `w` and line
457 reads `eps`; when the loop body has executed at least once both are
bound, but when it never ran (for instance `iter_limit = 1`, since the guard
`i < iter_limit` is false at `i = 1`) CPython raises an unbound-local error,
embedded as `.error .nameError`.  Note that, unlike `IV2SLS.fit` and
`IVLIML.fit`, this `fit` never subscripts `COVARIANCE_ESTIMATORS` with
`cov_type`: the covariance comes from the GMM-specific external estimator
`IVGMMCovariance`, and `cov_type` is merely stored on the results object. -/
def IVGMM.fit {n k m : ℕ} (endog : Matrix (Fin n) (Fin 1) ℚ)
    (exog : Matrix (Fin n) (Fin k) ℚ) (instruments : Matrix (Fin n) (Fin m) ℚ)
    (wm : WeightMatrixFn n k m) (iter_limit : ℕ) (tol : ℚ) (cov_type : String) :
    Except PyError (IVGMMResults k m) :=
  match IVGMM.loop exog endog instruments wm iter_limit tol iter_limit
      (IVGMM.initState exog endog instruments tol) with
  | .error e => .error e
  | .ok s =>
    match s.w, s.eps with
    | some w, some eps =>
      let mu : ℚ := if has_constant exog then (∑ i, endog i 0) / (n : ℚ) else 0
      let ymu : Matrix (Fin n) (Fin 1) ℚ := Matrix.of fun i _ => endog i 0 - mu
      let residual_ss : ℚ := (epsᵀ * eps) 0 0
      let model_ss : ℚ := (ymuᵀ * ymu) 0 0
      .ok ⟨s.params, 1 - residual_ss / model_ss, cov_type, residual_ss,
        model_ss, w, s.i⟩
    | _, _ => .error .nameError

/-- Concrete dataset: three observations, regressors `[1, x]` with a
constant column, instruments `[1, z1]`, a just-identified IV model. -/
def xD : Matrix (Fin 3) (Fin 2) ℚ := !![1, 0; 1, 1; 1, 2]

/-- Outcome for the concrete dataset `xD`/`zD`. -/
def yD : Matrix (Fin 3) (Fin 1) ℚ := !![0; 2; 1]

/-- Instruments for the concrete dataset: a constant and one instrument. -/
def zD : Matrix (Fin 3) (Fin 2) ℚ := !![1, 0; 1, 2; 1, 1]

/-- A regressor matrix without full column rank (two identical columns). -/
def xRankDef : Matrix (Fin 2) (Fin 2) ℚ := !![1, 1; 1, 1]

/-- A two-observation outcome, companion to `xRankDef`/`zPair`. -/
def yPair : Matrix (Fin 2) (Fin 1) ℚ := !![0; 1]

/-- A full-column-rank two-observation instrument matrix. -/
def zPair : Matrix (Fin 2) (Fin 2) ℚ := !![1, 0; 0, 1]

/-- A full-column-rank single regressor column on two observations. -/
def xOls : Matrix (Fin 2) (Fin 1) ℚ := !![1; 1]

/-- Outcome paired with `xOls`; its OLS fit is the sample mean. -/
def yOls : Matrix (Fin 2) (Fin 1) ℚ := !![1; 3]

/-- The loop state after the single body pass that `iter_limit = 2` admits:
residuals of the identity-weight estimate, the inverted weight matrix, the
re-estimated parameters, and the scaling matrix `vinv` bound at `i == 1`. -/
def IVGMM.oneStepState {n k m : ℕ} (x : Matrix (Fin n) (Fin k) ℚ)
    (y : Matrix (Fin n) (Fin 1) ℚ) (z : Matrix (Fin n) (Fin m) ℚ)
    (wm : WeightMatrixFn n k m) : GMMState n k m :=
  let params0 := IVGMM.estimate_parameters x y z 1
  let eps := y - x * params0
  let w := inv (wm x z eps)
  let params := IVGMM.estimate_parameters x y z w
  let delta := params - params0
  let xpz := (n : ℚ)⁻¹ • (xᵀ * z)
  let vinv := inv ((n : ℚ)⁻¹ • (xpz * w * xpzᵀ))
  ⟨params, params, 2, (deltaᵀ * vinv * delta) 0 0, some eps, some w, some vinv⟩

/-- Distinct cluster labels for two observations. -/
def clPair : Fin 2 → ℤ := fun i => (i : ℤ)

/-- A one-column instrument matrix on two observations. -/
def zCol : Matrix (Fin 2) (Fin 1) ℚ := !![1; 2]

/-- A residual column on two observations. -/
def epsCol : Matrix (Fin 2) (Fin 1) ℚ := !![1; 1]

/-- The executable `inv` agrees with Mathlib's `Matrix.inv` everywhere, so
all nonsingular-inverse lemmas transfer. -/
theorem inv_eq_matrix_inv {m : ℕ} (a : Matrix (Fin m) (Fin m) ℚ) :
    inv a = a⁻¹ := by
  rw [Matrix.inv_def, Ring.inverse_eq_inv]
  rfl

/-- C4: for every `(x, y, z)`, the κ-class estimator
`IVLIML.estimate_parameters` evaluated at the user-supplied `kappa = 1`
returns exactly the 2SLS estimate `IV2SLS.estimate_parameters x y z`: at
κ = 1 the `(1 - κ)`-weighted OLS moment blocks vanish and the κ-weighted
instrumented blocks reduce to the 2SLS normal equations. -/
theorem liml_kappa_one_reduces_to_2sls {n k m : ℕ} (x : Matrix (Fin n) (Fin k) ℚ)
    (y : Matrix (Fin n) (Fin 1) ℚ) (z : Matrix (Fin n) (Fin m) ℚ) :
    IVLIML.estimate_parameters x y z 1 = IV2SLS.estimate_parameters x y z := by
  unfold IVLIML.estimate_parameters IV2SLS.estimate_parameters
  simp

/-- C5: with instruments equal to the regressors (`z = x`) and `x` of full
column rank, the 2SLS estimate collapses to ordinary least squares
`(xᵀx)⁻¹ xᵀ y`. -/
theorem twosls_self_instruments_is_ols {n k : ℕ} (x : Matrix (Fin n) (Fin k) ℚ)
    (y : Matrix (Fin n) (Fin 1) ℚ) (h : (xᵀ * x).det ≠ 0) :
    IV2SLS.estimate_parameters x y x = inv (xᵀ * x) * (xᵀ * y) := by
  have hu : IsUnit (xᵀ * x).det := isUnit_iff_ne_zero.mpr h
  unfold IV2SLS.estimate_parameters pinv
  have h1 : (inv (xᵀ * x) * xᵀ) * x = 1 := by
    rw [inv_eq_matrix_inv, Matrix.mul_assoc, Matrix.nonsing_inv_mul _ hu]
  have h2 : (xᵀ * x) * ((inv (xᵀ * x) * xᵀ) * y) = xᵀ * y := by
    rw [inv_eq_matrix_inv, Matrix.mul_assoc ((xᵀ * x)⁻¹) xᵀ y,
      ← Matrix.mul_assoc (xᵀ * x) ((xᵀ * x)⁻¹) (xᵀ * y),
      Matrix.mul_nonsing_inv _ hu, Matrix.one_mul]
  rw [h1, Matrix.mul_one, h2]

/-- Witness for `twosls_self_instruments_is_ols`: the concrete single-column
model `xOls`, `yOls` satisfies the rank hypothesis, and the 2SLS estimate
with self-instruments is its OLS solution. -/
theorem twosls_self_instruments_is_ols_witness :
    (xOlsᵀ * xOls).det ≠ 0 ∧
      IV2SLS.estimate_parameters xOls yOls xOls = inv (xOlsᵀ * xOls) * (xOlsᵀ * yOls) :=
  have h : (xOlsᵀ * xOls).det ≠ 0 := by
    norm_num [xOls, Matrix.det_fin_one, Matrix.mul_apply, Fin.sum_univ_succ]
  ⟨h, twosls_self_instruments_is_ols xOls yOls h⟩

/-- C8: the validator's classification marks a regressor column as exogenous
both when it is a literal all-ones column (branch 1 of `_validate_inputs`)
and when it coincides element-wise with some instrument column (branch 2),
for every sample size and every instrument matrix. -/
theorem validator_marks_constant_and_duplicate_exog {n k m : ℕ}
    (x : Matrix (Fin n) (Fin k) ℚ) (z : Matrix (Fin n) (Fin m) ℚ) (j : Fin k)
    (h : (∀ i, x i j = 1) ∨ ∃ jz : Fin m, ∀ i, x i j = z i jz) :
    IV2SLS.regressor_is_exog x z j = true := by
  unfold IV2SLS.regressor_is_exog
  rcases h with h1 | h2
  · rw [if_pos (Or.inl h1)]
  · by_cases hc : (∀ i, x i j = 1) ∨
        ((∀ i i' : Fin n, x i j = x i' j) ∧ ∀ hn : 0 < n, x ⟨0, hn⟩ j ≠ 0)
    · rw [if_pos hc]
    · rw [if_neg hc, if_pos h2]

/-- Witness for `validator_marks_constant_and_duplicate_exog`: column 0 of
the concrete regressor matrix `xD` is all ones and is marked exogenous. -/
theorem validator_marks_constant_and_duplicate_exog_witness :
    (∀ i, xD i 0 = 1) ∧ IV2SLS.regressor_is_exog xD zD 0 = true :=
  have h : ∀ i : Fin 3, xD i 0 = 1 := by
    intro i; fin_cases i <;> norm_num [xD]
  ⟨h, validator_marks_constant_and_duplicate_exog xD zD 0 (Or.inl h)⟩

/-- C10: the homoskedastic weight matrix does not depend on the `center`
configuration option.  Constructing the strategy with `center=True` and with
`center=False` — both accepted by the `__init__` key check, since `center`
is a recognized key — yields instances whose `weight_matrix` methods return
the identical matrix `(εᵀε/n) · (ZᵀZ)/n`, because the method never reads the
stored configuration. -/
theorem hom_weight_matrix_ignores_center {n k m : ℕ}
    (x : Matrix (Fin n) (Fin k) ℚ) (z : Matrix (Fin n) (Fin m) ℚ)
    (eps : Matrix (Fin n) (Fin 1) ℚ) :
    (HomoskedasticWeightMatrix.init [("center", true)]).map
        (fun wmi => wmi.weight_matrix x z eps) =
      (HomoskedasticWeightMatrix.init [("center", false)]).map
        (fun wmi => wmi.weight_matrix x z eps) ∧
    (HomoskedasticWeightMatrix.init [("center", true)]).map
        (fun wmi => wmi.weight_matrix x z eps) =
      .ok ((n : ℚ)⁻¹ • ((((epsᵀ * eps) 0 0 / (n : ℚ)) • zᵀ) * z)) :=
  ⟨rfl, rfl⟩

/-- C7: with the default `center=False` and one observation per cluster (an
injective label vector), the one-way clustered weight matrix degenerates to
the heteroskedastic-robust weight matrix `ZeᵀZe/n`: each contiguous block of
the sorted labels is a single row, so the block accumulation is exactly the
full cross product. -/
theorem clustered_singletons_eq_robust {n k m : ℕ}
    (x : Matrix (Fin n) (Fin k) ℚ) (z : Matrix (Fin n) (Fin m) ℚ)
    (eps : Matrix (Fin n) (Fin 1) ℚ) (cl : Fin n → ℤ)
    (hinj : Function.Injective cl) :
    OneWayClusteredWeightMatrix.weight_matrix ⟨false, some cl⟩ x z eps =
      HeteroskedasticWeightMatrix.weight_matrix ⟨false⟩ x z eps := by
  unfold OneWayClusteredWeightMatrix.weight_matrix
    HeteroskedasticWeightMatrix.weight_matrix
  ext a b
  simp only [Option.getD_some, Matrix.smul_apply, Matrix.of_apply, smul_eq_mul,
    Bool.false_eq_true, if_false, sub_zero, Matrix.mul_apply,
    Matrix.transpose_apply]
  congr 1
  have hiff : ∀ i j : Fin n,
      ((∀ l, min i j ≤ l → l ≤ max i j →
          cl (Tuple.sort cl l) = cl (Tuple.sort cl i)) ↔ j = i) := by
    intro i j
    constructor
    · intro hc
      exact (Tuple.sort cl).injective (hinj (hc j (min_le_right i j) (le_max_right i j)))
    · rintro rfl
      intro l h1 h2
      have hl : l = j := le_antisymm (by simpa using h2) (by simpa using h1)
      rw [hl]
  rw [Finset.sum_congr rfl fun i _ =>
    Finset.sum_congr rfl fun j _ => if_congr (hiff i j) rfl rfl]
  rw [Finset.sum_congr rfl fun i _ => Finset.sum_ite_eq' Finset.univ i
    (fun j => broadcastMulCol z eps (Tuple.sort cl i) a *
      broadcastMulCol z eps (Tuple.sort cl j) b)]
  simp only [Finset.mem_univ, if_true]
  exact Equiv.sum_comp (Tuple.sort cl)
    (fun r => broadcastMulCol z eps r a * broadcastMulCol z eps r b)

/-- Witness for `clustered_singletons_eq_robust`: the labels `clPair` are
injective, and on the concrete data the two weight matrices agree. -/
theorem clustered_singletons_eq_robust_witness :
    Function.Injective clPair ∧
      OneWayClusteredWeightMatrix.weight_matrix ⟨false, some clPair⟩ xOls zCol epsCol =
        HeteroskedasticWeightMatrix.weight_matrix ⟨false⟩ xOls zCol epsCol :=
  have h : Function.Injective clPair := by decide
  ⟨h, clustered_singletons_eq_robust xOls zCol epsCol clPair h⟩

/-- Unfolding equation for `IVGMM.loop` at exhausted fuel. -/
theorem IVGMM.loop_zero {n k m : ℕ} (x : Matrix (Fin n) (Fin k) ℚ)
    (y : Matrix (Fin n) (Fin 1) ℚ) (z : Matrix (Fin n) (Fin m) ℚ)
    (wm : WeightMatrixFn n k m) (iter_limit : ℕ) (tol : ℚ) (s : GMMState n k m) :
    IVGMM.loop x y z wm iter_limit tol 0 s = .ok s := rfl

/-- Unfolding equation for `IVGMM.loop` at positive fuel: the `while` guard
`i < iter_limit and norm > tol` is tested, and on success one body pass runs
before the loop continues. -/
theorem IVGMM.loop_succ {n k m : ℕ} (x : Matrix (Fin n) (Fin k) ℚ)
    (y : Matrix (Fin n) (Fin 1) ℚ) (z : Matrix (Fin n) (Fin m) ℚ)
    (wm : WeightMatrixFn n k m) (iter_limit : ℕ) (tol : ℚ) (fuel : ℕ)
    (s : GMMState n k m) :
    IVGMM.loop x y z wm iter_limit tol (fuel + 1) s =
      if s.i < iter_limit ∧ tol < s.norm then
        match IVGMM.step x y z wm s with
        | .error e => .error e
        | .ok s' => IVGMM.loop x y z wm iter_limit tol fuel s'
      else .ok s := rfl

/-- A loop-body pass from a state whose `vinv` is bound — or whose counter
still reads 1, so that the pass itself binds `vinv` — cannot raise, and it
increments the counter by one. -/
theorem IVGMM.step_ok {n k m : ℕ} (x : Matrix (Fin n) (Fin k) ℚ)
    (y : Matrix (Fin n) (Fin 1) ℚ) (z : Matrix (Fin n) (Fin m) ℚ)
    (wm : WeightMatrixFn n k m) (s : GMMState n k m)
    (hs : s.i = 1 ∨ s.vinv.isSome = true) :
    ∃ s', IVGMM.step x y z wm s = .ok s' ∧ s'.i = s.i + 1 ∧
      s'.vinv.isSome = true := by
  unfold IVGMM.step
  by_cases hi : s.i = 1
  · simp only [hi, eq_self_iff_true, if_true]
    exact ⟨_, rfl, rfl, rfl⟩
  · obtain ⟨v, hv⟩ := Option.isSome_iff_exists.mp (hs.resolve_left hi)
    simp only [if_neg hi, hv]
    exact ⟨_, rfl, rfl, rfl⟩

/-- Fuel-indexed bound for `IVGMM.loop`: starting from a state that either
still reads `i = 1` or has `vinv` bound, with `i ≤ iter_limit` and enough
fuel to reach the cap, the loop returns normally in a state with
`i ≤ iter_limit` that moreover exited because the cap was hit or because the
convergence norm was at most `tol`. -/
theorem IVGMM.loop_bound {n k m : ℕ} (x : Matrix (Fin n) (Fin k) ℚ)
    (y : Matrix (Fin n) (Fin 1) ℚ) (z : Matrix (Fin n) (Fin m) ℚ)
    (wm : WeightMatrixFn n k m) (iter_limit : ℕ) (tol : ℚ) :
    ∀ (fuel : ℕ) (s : GMMState n k m), (s.i = 1 ∨ s.vinv.isSome = true) →
      s.i ≤ iter_limit → iter_limit ≤ s.i + fuel →
      ∃ s', IVGMM.loop x y z wm iter_limit tol fuel s = .ok s' ∧
        s'.i ≤ iter_limit ∧ (s'.i = iter_limit ∨ s'.norm ≤ tol) := by
  intro fuel
  induction fuel with
  | zero =>
    intro s hinv hle hfuel
    exact ⟨s, IVGMM.loop_zero x y z wm iter_limit tol s, hle, Or.inl (by omega)⟩
  | succ fuel ih =>
    intro s hinv hle hfuel
    rw [IVGMM.loop_succ]
    by_cases hcond : s.i < iter_limit ∧ tol < s.norm
    · rw [if_pos hcond]
      obtain ⟨s', hstep, hi, hvs⟩ := IVGMM.step_ok x y z wm s hinv
      rw [hstep]
      exact ih s' (Or.inr hvs) (by omega) (by omega)
    · rw [if_neg hcond]
      refine ⟨s, rfl, hle, ?_⟩
      by_cases hlt : s.i < iter_limit
      · exact Or.inr (not_lt.mp (not_and.mp hcond hlt))
      · exact Or.inl (by omega)

/-- C9: for `iter_limit ≥ 1` and `tol > 0`, the re-weighting loop of
`IVGMM.fit`, run exactly as `fit` runs it from its initial state, terminates
normally after at most `iter_limit` body passes (the final counter satisfies
`i - 1 < iter_limit`), exiting either at the cap or with the convergence norm
at most `tol`; moreover the loop returns immediately from any state whose
norm has fallen below `tol`, and a body pass after the first iteration leaves
the fixed scaling matrix `vinv` unchanged. -/
theorem gmm_fit_loop_bounded {n k m : ℕ} (endog : Matrix (Fin n) (Fin 1) ℚ)
    (exog : Matrix (Fin n) (Fin k) ℚ) (instruments : Matrix (Fin n) (Fin m) ℚ)
    (wm : WeightMatrixFn n k m) (iter_limit : ℕ) (tol : ℚ)
    (hil : 1 ≤ iter_limit) (htol : 0 < tol) :
    (∃ s', IVGMM.loop exog endog instruments wm iter_limit tol iter_limit
        (IVGMM.initState exog endog instruments tol) = .ok s' ∧
      s'.i - 1 < iter_limit ∧ (s'.i = iter_limit ∨ s'.norm ≤ tol)) ∧
    (∀ s : GMMState n k m, s.norm < tol →
      IVGMM.loop exog endog instruments wm iter_limit tol iter_limit s = .ok s) ∧
    (∀ s s' : GMMState n k m, s.i ≠ 1 →
      IVGMM.step exog endog instruments wm s = .ok s' → s'.vinv = s.vinv) := by
  refine ⟨?_, ?_, ?_⟩
  · obtain ⟨s', h1, h2, h3⟩ := IVGMM.loop_bound exog endog instruments wm
      iter_limit tol iter_limit (IVGMM.initState exog endog instruments tol)
      (Or.inl rfl) hil (Nat.le_add_left iter_limit 1)
    exact ⟨s', h1, by omega, h3⟩
  · intro s hlt
    cases iter_limit with
    | zero => exact IVGMM.loop_zero exog endog instruments wm 0 tol s
    | succ t =>
      rw [IVGMM.loop_succ, if_neg]
      rintro ⟨-, hc⟩
      exact absurd hc (not_lt.mpr hlt.le)
  · intro s s' hi hstep
    unfold IVGMM.step at hstep
    cases hv : s.vinv with
    | none =>
      simp only [if_neg hi, hv] at hstep
      exact (Except.noConfusion hstep)
    | some v =>
      simp only [if_neg hi, hv] at hstep
      injection hstep with h
      rw [← h]

/-- Witness for `gmm_fit_loop_bounded`: the concrete model `xD`, `yD`, `zD`
with the homoskedastic weight strategy, the default `iter_limit = 2` and the
default `tol = 1/10000` satisfies the hypotheses and hence the bound. -/
theorem gmm_fit_loop_bounded_witness :
    (1 : ℕ) ≤ 2 ∧ (0 : ℚ) < 1 / 10000 ∧
    ((∃ s', IVGMM.loop xD yD zD
        (HomoskedasticWeightMatrix.weight_matrix ⟨false⟩) 2 (1 / 10000) 2
        (IVGMM.initState xD yD zD (1 / 10000)) = .ok s' ∧
      s'.i - 1 < 2 ∧ (s'.i = 2 ∨ s'.norm ≤ 1 / 10000)) ∧
    (∀ s : GMMState 3 2 2, s.norm < 1 / 10000 →
      IVGMM.loop xD yD zD (HomoskedasticWeightMatrix.weight_matrix ⟨false⟩) 2
        (1 / 10000) 2 s = .ok s) ∧
    (∀ s s' : GMMState 3 2 2, s.i ≠ 1 →
      IVGMM.step xD yD zD (HomoskedasticWeightMatrix.weight_matrix ⟨false⟩) s
        = .ok s' → s'.vinv = s.vinv)) :=
  ⟨by norm_num, by norm_num,
    gmm_fit_loop_bounded yD xD zD (HomoskedasticWeightMatrix.weight_matrix ⟨false⟩)
      2 (1 / 10000) (by norm_num) (by norm_num)⟩

/-- C2 counterexample: on an input whose regressor matrix lacks full column
rank, constructing `IVGMM` with the unregistered `weight_type='bogus'` raises
the *rank* `ValueError`, not the configuration `KeyError` — the rank checks
(matrix algebra) run before the weight-registry lookup, so the claim that the
configuration error precedes any matrix algebra fails. -/
theorem gmm_unknown_weight_type_ce :
    IVGMM.create yPair xRankDef zPair "bogus" = .error .valueError ∧
      IVGMM.create yPair xRankDef zPair "bogus" ≠ .error .keyError := by
  have h : (xRankDefᵀ * xRankDef).det = 0 := by
    norm_num [xRankDef, Matrix.det_fin_two, Matrix.mul_apply, Fin.sum_univ_succ]
  have he : IVGMM.create yPair xRankDef zPair "bogus" = .error .valueError := by
    unfold IVGMM.create IV2SLS.validate_inputs
    rw [if_pos h]
  refine ⟨he, ?_⟩
  rw [he]
  intro hcon
  injection hcon with h2
  cases h2

/-- C2 (amended): once the input passes the rank validation, constructing
`IVGMM` with a `weight_type` that is not in the weight-matrix registry fails
with the configuration (`KeyError`) error at construction itself — before
any estimation, since `fit` is never reached. -/
theorem gmm_unknown_weight_type_fails_after_validation {n k m : ℕ}
    (endog : Matrix (Fin n) (Fin 1) ℚ) (exog : Matrix (Fin n) (Fin k) ℚ)
    (instruments : Matrix (Fin n) (Fin m) ℚ) (weight_type : String)
    (hx : fullColumnRank exog) (hz : fullColumnRank instruments)
    (hwt : WEIGHT_MATRICES weight_type = none) :
    IVGMM.create endog exog instruments weight_type = .error .keyError := by
  unfold IVGMM.create IV2SLS.validate_inputs
  rw [if_neg hx, if_neg hz, hwt]

/-- Witness for `gmm_unknown_weight_type_fails_after_validation`: the
concrete full-rank model `xD`, `zD` with `weight_type='bogus'`. -/
theorem gmm_unknown_weight_type_fails_after_validation_witness :
    fullColumnRank xD ∧ fullColumnRank zD ∧ WEIGHT_MATRICES "bogus" = none ∧
      IVGMM.create yD xD zD "bogus" = .error .keyError :=
  have hx : fullColumnRank xD := by
    norm_num [fullColumnRank, xD, Matrix.det_fin_two, Matrix.mul_apply,
      Fin.sum_univ_succ]
  have hz : fullColumnRank zD := by
    norm_num [fullColumnRank, zD, Matrix.det_fin_two, Matrix.mul_apply,
      Fin.sum_univ_succ]
  have hw : WEIGHT_MATRICES "bogus" = none := by decide
  ⟨hx, hz, hw, gmm_unknown_weight_type_fails_after_validation yD xD zD "bogus" hx hz hw⟩

/-- C3 (amended): for `IV2SLS` and `IVLIML` (on the user-supplied-κ path),
`fit` with a `cov_type` outside the covariance registry fails with the
unknown-estimator (`KeyError`) error; `IVGMM.fit` is the exception — see the
counterexample `gmm_fit_ignores_cov_type_ce`, it never consults the
registry. -/
theorem fit_unknown_cov_type_fails {n k m : ℕ} (endog : Matrix (Fin n) (Fin 1) ℚ)
    (exog : Matrix (Fin n) (Fin k) ℚ) (instruments : Matrix (Fin n) (Fin m) ℚ)
    (kappa : ℚ) (cov_type : String) (hct : cov_type ∉ COVARIANCE_ESTIMATORS) :
    IV2SLS.fit endog exog instruments cov_type = .error .keyError ∧
      IVLIML.fit endog exog instruments kappa cov_type = .error .keyError := by
  constructor
  · unfold IV2SLS.fit
    simp only [if_neg hct]
  · unfold IVLIML.fit
    simp only [if_neg hct]

/-- Witness for `fit_unknown_cov_type_fails`: `cov_type='bogus'` is not
registered, and both fits fail with the lookup error on the concrete data. -/
theorem fit_unknown_cov_type_fails_witness :
    "bogus" ∉ COVARIANCE_ESTIMATORS ∧
      IV2SLS.fit yD xD zD "bogus" = .error .keyError ∧
      IVLIML.fit yD xD zD 1 "bogus" = .error .keyError :=
  have h : "bogus" ∉ COVARIANCE_ESTIMATORS := by decide
  ⟨h, (fit_unknown_cov_type_fails yD xD zD 1 "bogus" h).1,
    (fit_unknown_cov_type_fails yD xD zD 1 "bogus" h).2⟩

/-- The first body pass, from the initial state, produces `oneStepState`. -/
theorem IVGMM.step_init {n k m : ℕ} (x : Matrix (Fin n) (Fin k) ℚ)
    (y : Matrix (Fin n) (Fin 1) ℚ) (z : Matrix (Fin n) (Fin m) ℚ)
    (wm : WeightMatrixFn n k m) (tol : ℚ) :
    IVGMM.step x y z wm (IVGMM.initState x y z tol) =
      .ok (IVGMM.oneStepState x y z wm) := rfl

/-- With `iter_limit = 2` and positive tolerance the loop runs its body
exactly once: the guard holds at `i = 1` (`norm` starts at `10 * tol`), and
fails at `i = 2`. -/
theorem IVGMM.loop_two_eval {n k m : ℕ} (x : Matrix (Fin n) (Fin k) ℚ)
    (y : Matrix (Fin n) (Fin 1) ℚ) (z : Matrix (Fin n) (Fin m) ℚ)
    (wm : WeightMatrixFn n k m) (tol : ℚ) (htol : 0 < tol) :
    IVGMM.loop x y z wm 2 tol 2 (IVGMM.initState x y z tol) =
      .ok (IVGMM.oneStepState x y z wm) := by
  have hc : (IVGMM.initState x y z tol).i < 2 ∧
      tol < (IVGMM.initState x y z tol).norm := by
    constructor
    · show (1 : ℕ) < 2
      norm_num
    · show tol < 10 * tol
      linarith
  show IVGMM.loop x y z wm 2 tol (1 + 1) (IVGMM.initState x y z tol) = _
  rw [IVGMM.loop_succ, if_pos hc, IVGMM.step_init]
  rfl

/-- `IVGMM.fit` with `iter_limit = 2` (the default) and positive tolerance
returns normally, with the parameters of the single-pass state. -/
theorem IVGMM.fit_two_ok {n k m : ℕ} (endog : Matrix (Fin n) (Fin 1) ℚ)
    (exog : Matrix (Fin n) (Fin k) ℚ) (instruments : Matrix (Fin n) (Fin m) ℚ)
    (wm : WeightMatrixFn n k m) (tol : ℚ) (cov_type : String) (htol : 0 < tol) :
    ∃ res : IVGMMResults k m,
      IVGMM.fit endog exog instruments wm 2 tol cov_type = .ok res ∧
        res.params = (IVGMM.oneStepState exog endog instruments wm).params := by
  unfold IVGMM.fit
  rw [IVGMM.loop_two_eval exog endog instruments wm tol htol]
  exact ⟨_, rfl, rfl⟩

/-- C3 counterexample: `IVGMM.fit` with the unregistered `cov_type='bogus'`
succeeds — its covariance comes from the GMM-specific external estimator and
the name is stored without ever subscripting `COVARIANCE_ESTIMATORS` — so
the unknown-`cov_type` claim fails for the IVGMM estimator. -/
theorem gmm_fit_ignores_cov_type_ce :
    "bogus" ∉ COVARIANCE_ESTIMATORS ∧
      (IVGMM.fit yD xD zD (HomoskedasticWeightMatrix.weight_matrix ⟨false⟩) 2
        (1 / 10000) "bogus").toOption.isSome = true := by
  refine ⟨by decide, ?_⟩
  obtain ⟨res, hres, -⟩ := IVGMM.fit_two_ok yD xD zD
    (HomoskedasticWeightMatrix.weight_matrix ⟨false⟩) (1 / 10000) "bogus"
    (by norm_num)
  rw [hres]
  rfl

/-- C1 counterexample: calling `IVGMM.fit` with `iter_limit = 1` (and the
homoskedastic weight strategy) does not return the 2SLS parameter vector — it
returns no parameter vector at all: the loop guard `i < iter_limit` is false
at the initial `i = 1`, the body never binds `w`/`eps`, and line 454 then
raises the unbound-local error, while `IV2SLS.fit` on the same data returns
normally. -/
theorem gmm_iter_limit_one_ce :
    IVGMM.fit yD xD zD (HomoskedasticWeightMatrix.weight_matrix ⟨false⟩) 1
        (1 / 10000) "robust" = .error .nameError ∧
      (IV2SLS.fit yD xD zD "robust").toOption.isSome = true :=
  ⟨rfl, rfl⟩

/-- Scalar factors cancel in the GMM estimator: the weight `c • W0` with
`c ≠ 0` yields the same parameters as the unscaled normal equations built
from `W0`, provided the weighted Gram matrix is nonsingular. -/
theorem IVGMM.estimate_smul_weight {n k m : ℕ} (x : Matrix (Fin n) (Fin k) ℚ)
    (y : Matrix (Fin n) (Fin 1) ℚ) (z : Matrix (Fin n) (Fin m) ℚ) (c : ℚ)
    (W0 : Matrix (Fin m) (Fin m) ℚ) (hc : c ≠ 0)
    (hA : ((xᵀ * z) * W0 * (xᵀ * z)ᵀ).det ≠ 0) :
    IVGMM.estimate_parameters x y z (c • W0) =
      ((xᵀ * z) * W0 * (xᵀ * z)ᵀ)⁻¹ * ((xᵀ * z) * W0 * (zᵀ * y)) := by
  have hAu : IsUnit ((xᵀ * z) * W0 * (xᵀ * z)ᵀ).det := isUnit_iff_ne_zero.mpr hA
  unfold IVGMM.estimate_parameters
  simp only [Matrix.mul_smul, Matrix.smul_mul]
  have hinv : inv (c • ((xᵀ * z) * W0 * (xᵀ * z)ᵀ)) =
      c⁻¹ • ((xᵀ * z) * W0 * (xᵀ * z)ᵀ)⁻¹ := by
    rw [inv_eq_matrix_inv]
    apply Matrix.inv_eq_right_inv
    rw [Matrix.smul_mul, Matrix.mul_smul, smul_smul, Matrix.mul_nonsing_inv _ hAu,
      mul_inv_cancel₀ hc, one_smul]
  rw [hinv, Matrix.smul_mul, smul_smul, mul_inv_cancel₀ hc, one_smul]

/-- The homoskedastic weight matrix is a nonzero scalar multiple of `ZᵀZ`
whenever residuals and sample size are nonzero, so the GMM estimate computed
from its inverse is exactly the 2SLS estimate. -/
theorem gmm_hom_weight_estimate_eq_2sls {n k m : ℕ} (x : Matrix (Fin n) (Fin k) ℚ)
    (y : Matrix (Fin n) (Fin 1) ℚ) (z : Matrix (Fin n) (Fin m) ℚ)
    (eps : Matrix (Fin n) (Fin 1) ℚ) (hn : 0 < n)
    (hz : (zᵀ * z).det ≠ 0) (hs : (epsᵀ * eps) 0 0 ≠ 0)
    (hA : ((xᵀ * z) * (pinv z * x)).det ≠ 0) :
    IVGMM.estimate_parameters x y z
        (inv (HomoskedasticWeightMatrix.weight_matrix ⟨false⟩ x z eps)) =
      IV2SLS.estimate_parameters x y z := by
  have hn0 : (n : ℚ) ≠ 0 := Nat.cast_ne_zero.mpr hn.ne'
  have hc : (n : ℚ)⁻¹ * ((epsᵀ * eps) 0 0 / (n : ℚ)) ≠ 0 :=
    mul_ne_zero (inv_ne_zero hn0) (div_ne_zero hs hn0)
  have hzu : IsUnit (zᵀ * z).det := isUnit_iff_ne_zero.mpr hz
  have hW : HomoskedasticWeightMatrix.weight_matrix ⟨false⟩ x z eps =
      ((n : ℚ)⁻¹ * ((epsᵀ * eps) 0 0 / (n : ℚ))) • (zᵀ * z) := by
    show (n : ℚ)⁻¹ • ((((epsᵀ * eps) 0 0 / (n : ℚ)) • zᵀ) * z) = _
    rw [Matrix.smul_mul, smul_smul]
  have hWinv : inv (HomoskedasticWeightMatrix.weight_matrix ⟨false⟩ x z eps) =
      ((n : ℚ)⁻¹ * ((epsᵀ * eps) 0 0 / (n : ℚ)))⁻¹ • (zᵀ * z)⁻¹ := by
    rw [hW, inv_eq_matrix_inv]
    apply Matrix.inv_eq_right_inv
    rw [Matrix.smul_mul, Matrix.mul_smul, smul_smul, Matrix.mul_nonsing_inv _ hzu,
      mul_inv_cancel₀ hc, one_smul]
  have hA2eq : (xᵀ * z) * (pinv z * x) = (xᵀ * z) * (zᵀ * z)⁻¹ * (xᵀ * z)ᵀ := by
    unfold pinv
    rw [inv_eq_matrix_inv]
    simp [Matrix.mul_assoc, Matrix.transpose_mul, Matrix.transpose_transpose]
  have hNeq : (xᵀ * z) * (pinv z * y) = (xᵀ * z) * (zᵀ * z)⁻¹ * (zᵀ * y) := by
    unfold pinv
    rw [inv_eq_matrix_inv]
    simp [Matrix.mul_assoc]
  rw [hWinv, IVGMM.estimate_smul_weight x y z _ _ (inv_ne_zero hc) (hA2eq ▸ hA)]
  unfold IV2SLS.estimate_parameters
  rw [inv_eq_matrix_inv, hA2eq, hNeq]

/-- C1 (amended): with `iter_limit = 2` — one pass of the re-weighting loop,
which is what the default configuration performs; at `iter_limit = 1` the
code instead raises an unbound-local error, see `gmm_iter_limit_one_ce` —
the homoskedastic weight strategy makes `IVGMM.fit` return exactly the
IV2SLS parameter vector on well-conditioned inputs (positive sample size,
nonsingular `ZᵀZ`, nonzero first-step residuals, nonsingular 2SLS Gram
matrix): the inverted weight is a nonzero multiple of `(ZᵀZ)⁻¹` and the
scalar cancels in the GMM normal equations. -/
theorem gmm_two_step_homoskedastic_eq_2sls {n k m : ℕ}
    (endog : Matrix (Fin n) (Fin 1) ℚ) (exog : Matrix (Fin n) (Fin k) ℚ)
    (instruments : Matrix (Fin n) (Fin m) ℚ) (tol : ℚ) (cov_type : String)
    (hn : 0 < n) (htol : 0 < tol)
    (hz : (instrumentsᵀ * instruments).det ≠ 0)
    (hs : ((endog - exog * IVGMM.estimate_parameters exog endog instruments 1)ᵀ *
        (endog - exog * IVGMM.estimate_parameters exog endog instruments 1)) 0 0 ≠ 0)
    (hA : ((exogᵀ * instruments) * (pinv instruments * exog)).det ≠ 0) :
    (IVGMM.fit endog exog instruments
        (HomoskedasticWeightMatrix.weight_matrix ⟨false⟩) 2 tol cov_type).map
      IVGMMResults.params =
      .ok (IV2SLS.estimate_parameters exog endog instruments) := by
  obtain ⟨res, hres, hp⟩ := IVGMM.fit_two_ok endog exog instruments
    (HomoskedasticWeightMatrix.weight_matrix ⟨false⟩) tol cov_type htol
  rw [hres]
  show Except.ok res.params = _
  rw [hp]
  show Except.ok (IVGMM.estimate_parameters exog endog instruments
    (inv (HomoskedasticWeightMatrix.weight_matrix ⟨false⟩ exog instruments
      (endog - exog * IVGMM.estimate_parameters exog endog instruments 1)))) = _
  rw [gmm_hom_weight_estimate_eq_2sls exog endog instruments _ hn hz hs hA]

/-- Gram matrix of the concrete instruments. -/
theorem zD_gram : zDᵀ * zD = !![3, 3; 3, 5] := by
  ext i j
  fin_cases i <;> fin_cases j <;>
    norm_num [zD, Matrix.mul_apply, Matrix.transpose_apply, Fin.sum_univ_succ]

/-- Inverse of the concrete instrument Gram matrix. -/
theorem zD_gram_inv : inv (zDᵀ * zD) = !![5/6, -1/2; -1/2, 1/2] := by
  rw [inv_eq_matrix_inv, Matrix.inv_def, Ring.inverse_eq_inv, zD_gram]
  ext i j
  fin_cases i <;> fin_cases j <;>
    norm_num [Matrix.det_fin_two, Matrix.adjugate_fin_two, Matrix.smul_apply]

/-- Transpose of the concrete instruments, as a literal. -/
theorem zD_transpose : zDᵀ = !![1, 1, 1; 0, 2, 1] := by
  ext i j
  fin_cases i <;> fin_cases j <;> norm_num [zD, Matrix.transpose_apply]

/-- Pseudoinverse of the concrete instruments. -/
theorem zD_pinv : pinv zD = !![5/6, -1/6, 1/3; -1/2, 1/2, 0] := by
  unfold pinv
  rw [zD_gram_inv, zD_transpose]
  ext i j
  fin_cases i <;> fin_cases j <;>
    norm_num [Matrix.mul_apply, Fin.sum_univ_succ]

/-- The cross-moment matrix of the concrete data. -/
theorem xD_t_zD : xDᵀ * zD = !![3, 3; 3, 4] := by
  ext i j
  fin_cases i <;> fin_cases j <;>
    norm_num [xD, zD, Matrix.mul_apply, Matrix.transpose_apply, Fin.sum_univ_succ]

/-- First-stage projection of the concrete regressors. -/
theorem pinvzD_xD : pinv zD * xD = !![1, 1/2; 0, 1/2] := by
  rw [zD_pinv]
  ext i j
  fin_cases i <;> fin_cases j <;>
    norm_num [xD, Matrix.mul_apply, Fin.sum_univ_succ]

/-- First-stage projection of the concrete outcome. -/
theorem pinvzD_yD : pinv zD * yD = (!![0; 1] : Matrix (Fin 2) (Fin 1) ℚ) := by
  rw [zD_pinv]
  ext i j
  fin_cases i <;> fin_cases j <;>
    norm_num [yD, Matrix.mul_apply, Fin.sum_univ_succ]

/-- The 2SLS estimate on the concrete data. -/
theorem twoSLS_D : IV2SLS.estimate_parameters xD yD zD = !![-1; 2] := by
  unfold IV2SLS.estimate_parameters
  rw [xD_t_zD, pinvzD_xD, pinvzD_yD]
  have h1 : (!![3, 3; 3, 4] : Matrix (Fin 2) (Fin 2) ℚ) * !![1, 1/2; 0, 1/2] =
      !![3, 3; 3, 7/2] := by
    ext i j
    fin_cases i <;> fin_cases j <;>
      norm_num [Matrix.mul_apply, Fin.sum_univ_succ]
  have h2 : (!![3, 3; 3, 4] : Matrix (Fin 2) (Fin 2) ℚ) *
      (!![0; 1] : Matrix (Fin 2) (Fin 1) ℚ) = !![3; 4] := by
    ext i j
    fin_cases i <;> fin_cases j <;>
      norm_num [Matrix.mul_apply, Fin.sum_univ_succ]
  have h3 : inv (!![3, 3; 3, 7/2] : Matrix (Fin 2) (Fin 2) ℚ) =
      !![7/3, -2; -2, 2] := by
    rw [inv_eq_matrix_inv, Matrix.inv_def, Ring.inverse_eq_inv]
    ext i j
    fin_cases i <;> fin_cases j <;>
      norm_num [Matrix.det_fin_two, Matrix.adjugate_fin_two, Matrix.smul_apply]
  rw [h1, h2, h3]
  ext i j
  fin_cases i <;> fin_cases j <;>
    norm_num [Matrix.mul_apply, Fin.sum_univ_succ]

/-- The identity-weight GMM estimate on the concrete data (which, the model
being just identified, coincides with 2SLS there). -/
theorem beta0_D : IVGMM.estimate_parameters xD yD zD 1 = !![-1; 2] := by
  simp only [IVGMM.estimate_parameters, Matrix.mul_one]
  rw [xD_t_zD]
  have ht : (!![3, 3; 3, 4] : Matrix (Fin 2) (Fin 2) ℚ)ᵀ = !![3, 3; 3, 4] := by
    ext i j
    fin_cases i <;> fin_cases j <;> norm_num [Matrix.transpose_apply]
  have h1 : (!![3, 3; 3, 4] : Matrix (Fin 2) (Fin 2) ℚ) * !![3, 3; 3, 4] =
      !![18, 21; 21, 25] := by
    ext i j
    fin_cases i <;> fin_cases j <;>
      norm_num [Matrix.mul_apply, Fin.sum_univ_succ]
  have h2 : zDᵀ * yD = (!![3; 5] : Matrix (Fin 2) (Fin 1) ℚ) := by
    ext i j
    fin_cases i <;> fin_cases j <;>
      norm_num [zD, yD, Matrix.mul_apply, Matrix.transpose_apply, Fin.sum_univ_succ]
  have h3 : (!![3, 3; 3, 4] : Matrix (Fin 2) (Fin 2) ℚ) *
      (!![3; 5] : Matrix (Fin 2) (Fin 1) ℚ) = !![24; 29] := by
    ext i j
    fin_cases i <;> fin_cases j <;>
      norm_num [Matrix.mul_apply, Fin.sum_univ_succ]
  have h4 : inv (!![18, 21; 21, 25] : Matrix (Fin 2) (Fin 2) ℚ) =
      !![25/9, -7/3; -7/3, 2] := by
    rw [inv_eq_matrix_inv, Matrix.inv_def, Ring.inverse_eq_inv]
    ext i j
    fin_cases i <;> fin_cases j <;>
      norm_num [Matrix.det_fin_two, Matrix.adjugate_fin_two, Matrix.smul_apply]
  rw [ht, h1, h2, h3, h4]
  ext i j
  fin_cases i <;> fin_cases j <;>
    norm_num [Matrix.mul_apply, Fin.sum_univ_succ]

/-- Residuals of the concrete data at parameters `(-1, 2)`. -/
theorem epsD : yD - xD * (!![-1; 2] : Matrix (Fin 2) (Fin 1) ℚ) = !![1; 1; -2] := by
  ext i j
  fin_cases i <;> fin_cases j <;>
    norm_num [xD, yD, Matrix.mul_apply, Matrix.sub_apply, Fin.sum_univ_succ]

/-- First-step residual sum of squares of the concrete data. -/
theorem residD_ss : ((yD - xD * IVGMM.estimate_parameters xD yD zD 1)ᵀ *
    (yD - xD * IVGMM.estimate_parameters xD yD zD 1)) 0 0 = 6 := by
  rw [beta0_D, epsD]
  norm_num [Matrix.mul_apply, Matrix.transpose_apply, Fin.sum_univ_succ]

/-- The 2SLS Gram matrix of the concrete data is nonsingular. -/
theorem gramD_ne_zero : ((xDᵀ * zD) * (pinv zD * xD)).det ≠ 0 := by
  rw [xD_t_zD, pinvzD_xD]
  norm_num [Matrix.det_fin_two, Matrix.mul_apply, Fin.sum_univ_succ]

/-- Witness for `gmm_two_step_homoskedastic_eq_2sls`: the concrete data
satisfies each well-conditionedness hypothesis, and the two-step
homoskedastic GMM fit returns exactly the 2SLS estimate there. -/
theorem gmm_two_step_homoskedastic_eq_2sls_witness :
    0 < 3 ∧ (0 : ℚ) < 1 / 10000 ∧ (zDᵀ * zD).det ≠ 0 ∧
      ((yD - xD * IVGMM.estimate_parameters xD yD zD 1)ᵀ *
        (yD - xD * IVGMM.estimate_parameters xD yD zD 1)) 0 0 ≠ 0 ∧
      ((xDᵀ * zD) * (pinv zD * xD)).det ≠ 0 ∧
      (IVGMM.fit yD xD zD (HomoskedasticWeightMatrix.weight_matrix ⟨false⟩) 2
          (1 / 10000) "robust").map IVGMMResults.params =
        .ok (IV2SLS.estimate_parameters xD yD zD) :=
  have hz : (zDᵀ * zD).det ≠ 0 := by
    rw [zD_gram]
    norm_num [Matrix.det_fin_two]
  have hs : ((yD - xD * IVGMM.estimate_parameters xD yD zD 1)ᵀ *
      (yD - xD * IVGMM.estimate_parameters xD yD zD 1)) 0 0 ≠ 0 := by
    rw [residD_ss]
    norm_num
  ⟨by norm_num, by norm_num, hz, hs, gramD_ne_zero,
    gmm_two_step_homoskedastic_eq_2sls yD xD zD (1 / 10000) "robust"
      (by norm_num) (by norm_num) hz hs gramD_ne_zero⟩

/-- Full evaluation of `IV2SLS.fit` on the concrete data: the fit succeeds
with parameters `(-1, 2)`, residual sum of squares 6, model sum of squares 2
and hence `r2 = 1 - 6/2 = -2`. -/
theorem fit2sls_D_eval :
    IV2SLS.fit yD xD zD "robust" =
      .ok ⟨!![-1; 2], -2, "robust", 6, 2⟩ := by
  have hmem : "robust" ∈ COVARIANCE_ESTIMATORS := by decide
  have hcst : has_constant xD = true := by decide
  unfold IV2SLS.fit
  simp only [twoSLS_D, if_pos hmem, hcst, eq_self_iff_true, if_true, epsD]
  norm_num [Except.ok.injEq, IVResults.mk.injEq, yD, Matrix.mul_apply,
    Matrix.transpose_apply, Matrix.of_apply, Fin.sum_univ_succ]

/-- C6 counterexample: the concrete model has a constant column, a strictly
positive model sum of squares (2), and yet `fit` computes `rsquared = -2`:
IV residuals are not least-squares residuals, so the residual sum of squares
(here 6) can exceed the total, violating the claimed lower bound `0 ≤ r2`. -/
theorem rsquared_lower_bound_ce :
    has_constant xD = true ∧
      (IV2SLS.fit yD xD zD "robust").map IVResults.model_ss = .ok 2 ∧
      (IV2SLS.fit yD xD zD "robust").map IVResults.rsquared = .ok (-2) ∧
      ¬((0 : ℚ) ≤ -2) := by
  refine ⟨by decide, ?_, ?_, by norm_num⟩ <;> rw [fit2sls_D_eval] <;> rfl

/-- C6 (amended): whenever `IV2SLS.fit` succeeds on a model with a constant
and the model sum of squares is strictly positive, the computed
`rsquared = 1 - residual_ss / model_ss` satisfies `r2 ≤ 1`, since the
residual sum of squares is a sum of squares and hence nonnegative.  The
other half of the claimed bound, `0 ≤ r2`, does not hold on this code — see
`rsquared_lower_bound_ce`. -/
theorem rsquared_at_most_one {n k m : ℕ} (endog : Matrix (Fin n) (Fin 1) ℚ)
    (exog : Matrix (Fin n) (Fin k) ℚ) (instruments : Matrix (Fin n) (Fin m) ℚ)
    (cov_type : String) (res : IVResults k) (hc : has_constant exog = true)
    (hfit : IV2SLS.fit endog exog instruments cov_type = .ok res)
    (hmss : 0 < res.model_ss) :
    res.rsquared ≤ 1 := by
  unfold IV2SLS.fit at hfit
  by_cases hmem : cov_type ∈ COVARIANCE_ESTIMATORS
  · simp only [if_pos hmem] at hfit
    injection hfit with h
    subst h
    simp only [IVResults.rsquared, IVResults.model_ss] at hmss ⊢
    have hrss : (0 : ℚ) ≤
        ((endog - exog * IV2SLS.estimate_parameters exog endog instruments)ᵀ *
          (endog - exog * IV2SLS.estimate_parameters exog endog instruments)) 0 0 := by
      rw [Matrix.mul_apply]
      refine Finset.sum_nonneg fun i _ => ?_
      rw [Matrix.transpose_apply]
      exact mul_self_nonneg _
    have hq := div_nonneg hrss hmss.le
    linarith
  · simp only [if_neg hmem] at hfit
    exact (Except.noConfusion hfit)

/-- Witness for `rsquared_at_most_one`: on the concrete model the fit
succeeds, the model sum of squares is positive, and the computed R² (which
is `-2`) indeed satisfies `r2 ≤ 1`. -/
theorem rsquared_at_most_one_witness :
    has_constant xD = true ∧
      (∃ res : IVResults 2, IV2SLS.fit yD xD zD "robust" = .ok res ∧
        0 < res.model_ss ∧ res.rsquared ≤ 1) :=
  have hc : has_constant xD = true := by decide
  have hm : (0 : ℚ) < (show IVResults 2 from ⟨!![-1; 2], -2, "robust", 6, 2⟩).model_ss := by
    show (0 : ℚ) < 2
    norm_num
  ⟨hc, ⟨_, fit2sls_D_eval, hm,
    rsquared_at_most_one yD xD zD "robust" _ hc fit2sls_D_eval hm⟩⟩
